import Mathlib

/-! Shallow embedding of the Kite Swing Trading Analytics server
(`gtt_api_server.py` and `kite_utils.py`).

Prices and timestamps are modelled as rationals, share quantities as
integers; Python operations that can raise are modelled as `Option`-valued
functions; the process-wide mutable caches are modelled by explicit state
passing.  Each section names the Python function it embeds. -/

namespace KiteSwing

/-! ## EMA engine (`calculate_ema`, gtt_api_server.py lines 92-96) -/

/-- One step of the pandas `ewm(span=period, adjust=False)` recurrence:
`y_t = (1 - alpha) * y_(t-1) + alpha * x_t` with `alpha = 2 / (span + 1)`. -/
def ewmStep (alpha prev x : ℚ) : ℚ := (1 - alpha) * prev + alpha * x

/-- The tail of the `ewm(...).mean()` column, continuing from the previous
EMA value `prev`. -/
def ewmMeanFrom (alpha : ℚ) (prev : ℚ) : List ℚ → List ℚ
  | [] => []
  | x :: xs => ewmStep alpha prev x :: ewmMeanFrom alpha (ewmStep alpha prev x) xs

/-- `series.ewm(span=period, adjust=False).mean()`: the full EMA column,
seeded by the first element (`y_0 = x_0`). -/
def ewmMean (alpha : ℚ) : List ℚ → List ℚ
  | [] => []
  | x :: xs => x :: ewmMeanFrom alpha x xs

/-- `calculate_ema(data, period)`: returns `None` when `len(data) < period`,
otherwise `data['Close'].ewm(span=period, adjust=False).mean().iloc[-1]`.
The DataFrame is modelled by its `Close` column; `.iloc[-1]` on an empty
column (reachable only for `period = 0`) raises, modelled by `none`. -/
def calculate_ema (close : List ℚ) (period : ℕ) : Option ℚ :=
  if close.length < period then none
  else (ewmMean ((2 : ℚ) / ((period : ℚ) + 1)) close).getLast?

/-- The spec's description of the EMA: a recurrence with smoothing factor
`alpha`, seeded by the first value, whose final state is returned. -/
def emaSpec (alpha seed : ℚ) (xs : List ℚ) : ℚ :=
  xs.foldl (fun prev x => prev + alpha * (x - prev)) seed

theorem ewmMeanFrom_getLast? (alpha : ℚ) (xs : List ℚ) :
    ∀ seed : ℚ, (seed :: ewmMeanFrom alpha seed xs).getLast? = some (emaSpec alpha seed xs) := by
  induction xs with
  | nil => intro seed; simp [ewmMeanFrom, emaSpec]
  | cons x xs ih =>
    intro seed
    have h := ih (ewmStep alpha seed x)
    simp only [ewmMeanFrom, List.getLast?_cons_cons] at *
    rw [h]
    simp only [emaSpec, ewmStep, List.foldl_cons, Option.some.injEq]
    congr 1
    ring

/-- C5: `calculate_ema` returns Absent (`none`) when the series has fewer than
`period` bars, and otherwise (including exactly `period` bars) returns the
last value of the recurrence-based EMA with smoothing factor `2/(period+1)`
over the `Close` field, seeded by the first `Close` value. -/
theorem calculate_ema_characterization (close : List ℚ) (period : ℕ) (hp : 1 ≤ period) :
    (close.length < period → calculate_ema close period = none) ∧
    (period ≤ close.length →
      calculate_ema close period =
        some (emaSpec ((2 : ℚ) / ((period : ℚ) + 1)) close.headI close.tail)) := by
  constructor
  · intro h
    simp [calculate_ema, h]
  · intro h
    have hlen : 1 ≤ close.length := le_trans hp h
    match close, hlen with
    | x :: xs, _ =>
      have hnl : ¬ (x :: xs).length < period := not_lt.mpr h
      simp only [calculate_ema, hnl, if_false, ewmMean, List.headI, List.tail_cons]
      exact ewmMeanFrom_getLast? _ xs x

/-- Witness for C5 at a concrete input: a 3-bar series with period 2. -/
theorem calculate_ema_characterization_witness :
    calculate_ema [1, 2, 3] 2 = some (emaSpec ((2 : ℚ) / ((2 : ℕ) + 1)) 1 [2, 3]) :=
  (calculate_ema_characterization [1, 2, 3] 2 (by decide)).2 (by decide)

/-! ## Risk metrics (`get_risk_analytics`, gtt_api_server.py lines 417-428) -/

/-- The fields of a `holdings_dict` entry used by the risk formulas. -/
structure HoldingView where
  avg_price : ℚ
  last_price : ℚ
  total_qty : ℤ
  pnl : ℚ
deriving DecidableEq

/-- The fields of a `gtt_dict` entry used by the risk formulas. -/
structure GttView where
  sl_trigger : ℚ
  tgt_trigger : ℚ
deriving DecidableEq

/-- `sl_percentage = ((avg_price - sl_trigger) / avg_price * 100) if avg_price != 0 else 0`. -/
def sl_percent (h : HoldingView) (g : GttView) : ℚ :=
  if h.avg_price ≠ 0 then (h.avg_price - g.sl_trigger) / h.avg_price * 100 else 0

/-- `capital_risk = (avg_price - sl_trigger) * total_qty if total_qty != 0 else 0`. -/
def capital_risk (h : HoldingView) (g : GttView) : ℚ :=
  if h.total_qty ≠ 0 then (h.avg_price - g.sl_trigger) * (h.total_qty : ℚ) else 0

/-- `tgt_percentage = ((tgt_trigger - last_price) / last_price * 100) if last_price != 0 else 0`. -/
def tgt_percent (h : HoldingView) (g : GttView) : ℚ :=
  if h.last_price ≠ 0 then (g.tgt_trigger - h.last_price) / h.last_price * 100 else 0

/-- `rr_ratio = ((last_price - avg_price) / (avg_price - sl_trigger)) if (avg_price - sl_trigger) != 0 else 0`. -/
def rrRatio (h : HoldingView) (g : GttView) : ℚ :=
  if h.avg_price - g.sl_trigger ≠ 0 then
    (h.last_price - h.avg_price) / (h.avg_price - g.sl_trigger)
  else 0

/-- `open_pnl_risk = (last_price - sl_trigger) * total_qty if total_qty != 0 else 0`. -/
def open_pnl_risk (h : HoldingView) (g : GttView) : ℚ :=
  if h.total_qty ≠ 0 then (h.last_price - g.sl_trigger) * (h.total_qty : ℚ) else 0

/-- C6: the risk metrics equal the spec formulas with zero-denominator
guards, the quantity guard on `capital_risk`/`open_pnl_risk` being
redundant (the product is 0 anyway); and at the concrete instance
avg=100, last=120, qty=10, sl=90, tgt=150 they evaluate to
capital_risk=100, sl_percent=10, rr_ratio=2, open_pnl_risk=300. -/
theorem risk_metrics_spec (h : HoldingView) (g : GttView) :
    (h.avg_price = 0 → sl_percent h g = 0) ∧
    (h.avg_price ≠ 0 → sl_percent h g = (h.avg_price - g.sl_trigger) / h.avg_price * 100) ∧
    (h.last_price = 0 → tgt_percent h g = 0) ∧
    (h.last_price ≠ 0 → tgt_percent h g = (g.tgt_trigger - h.last_price) / h.last_price * 100) ∧
    (h.avg_price - g.sl_trigger = 0 → rrRatio h g = 0) ∧
    (h.avg_price - g.sl_trigger ≠ 0 →
      rrRatio h g = (h.last_price - h.avg_price) / (h.avg_price - g.sl_trigger)) ∧
    open_pnl_risk h g = (h.last_price - g.sl_trigger) * (h.total_qty : ℚ) ∧
    capital_risk h g = (h.avg_price - g.sl_trigger) * (h.total_qty : ℚ) ∧
    (capital_risk ⟨100, 120, 10, 0⟩ ⟨90, 150⟩ = 100 ∧
     sl_percent ⟨100, 120, 10, 0⟩ ⟨90, 150⟩ = 10 ∧
     rrRatio ⟨100, 120, 10, 0⟩ ⟨90, 150⟩ = 2 ∧
     open_pnl_risk ⟨100, 120, 10, 0⟩ ⟨90, 150⟩ = 300) := by
  refine ⟨?_, ?_, ?_, ?_, ?_, ?_, ?_, ?_, ?_⟩
  · intro ha; simp [sl_percent, ha]
  · intro ha; simp [sl_percent, ha]
  · intro hl; simp [tgt_percent, hl]
  · intro hl; simp [tgt_percent, hl]
  · intro hd; simp [rrRatio, hd]
  · intro hd; simp [rrRatio, hd]
  · rcases eq_or_ne h.total_qty 0 with hq | hq
    · simp [open_pnl_risk, hq]
    · simp [open_pnl_risk, hq]
  · rcases eq_or_ne h.total_qty 0 with hq | hq
    · simp [capital_risk, hq]
    · simp [capital_risk, hq]
  · refine ⟨?_, ?_, ?_, ?_⟩ <;> norm_num [capital_risk, sl_percent, rrRatio, open_pnl_risk]

/-- Witness for C6: the avg_price ≠ 0 branch at the spec's concrete instance. -/
theorem risk_metrics_spec_witness :
    sl_percent ⟨100, 120, 10, 0⟩ ⟨90, 150⟩ = (100 - 90) / 100 * 100 :=
  (risk_metrics_spec ⟨100, 120, 10, 0⟩ ⟨90, 150⟩).2.1 (by norm_num)

/-! ## Technical-health aggregate (`get_technical_health`, lines 559-571) -/

/-- The per-symbol counters entering the summary computation. -/
structure HealthEntry where
  bullish_count : ℕ
  total_emas : ℕ
deriving DecidableEq

/-- The comprehension filter `stock['total_emas'] > 0 and
stock['bullish_count'] / stock['total_emas'] >= 0.5`. -/
def isBullishStock (s : HealthEntry) : Bool :=
  decide (0 < s.total_emas) &&
    decide ((1 : ℚ) / 2 ≤ (s.bullish_count : ℚ) / (s.total_emas : ℚ))

/-- `bullish_stocks = sum(1 for stock in technical_health if ...)`. -/
def bullish_stocks (l : List HealthEntry) : ℕ := (l.filter isBullishStock).length

/-- `total_stocks = len(technical_health)`. -/
def total_stocks (l : List HealthEntry) : ℕ := l.length

/-- `bearish_stocks = total_stocks - bullish_stocks`. -/
def bearish_stocks (l : List HealthEntry) : ℕ := total_stocks l - bullish_stocks l

/-- C4 counterexample: in a result set with a single zero-EMA symbol, that
symbol is counted in the bearish total (bearish_stocks = 1), whereas the
claim says it is excluded from both the bullish and the bearish totals. -/
theorem zero_ema_symbol_counted_bearish :
    total_stocks [⟨0, 0⟩] = 1 ∧ bullish_stocks [⟨0, 0⟩] = 0 ∧
      ¬ bearish_stocks [⟨0, 0⟩] = 0 := by
  refine ⟨rfl, rfl, ?_⟩
  decide

theorem bullish_le_total (l : List HealthEntry) : bullish_stocks l ≤ total_stocks l :=
  List.length_filter_le _ _

/-- C4 amended: a symbol with total_emas > 0 is counted bullish iff
bullish_count / total_emas ≥ 1/2; a symbol with total_emas = 0 is excluded
from the bullish total but is counted both in total_stocks and in the
bearish total (bearish_stocks = total_stocks - bullish_stocks). -/
theorem technical_health_summary_amended (l : List HealthEntry) (e : HealthEntry)
    (he : e.total_emas = 0) :
    (∀ s : HealthEntry, 0 < s.total_emas →
      (isBullishStock s = true ↔ (1 : ℚ) / 2 ≤ (s.bullish_count : ℚ) / (s.total_emas : ℚ))) ∧
    total_stocks (e :: l) = total_stocks l + 1 ∧
    bullish_stocks (e :: l) = bullish_stocks l ∧
    bearish_stocks (e :: l) = bearish_stocks l + 1 := by
  have hbe : isBullishStock e = false := by
    simp [isBullishStock, he]
  refine ⟨?_, rfl, ?_, ?_⟩
  · intro s hs
    simp [isBullishStock, hs]
  · simp [bullish_stocks, List.filter_cons, hbe]
  · have hb : bullish_stocks l ≤ total_stocks l := bullish_le_total l
    have h1 : bullish_stocks (e :: l) = bullish_stocks l := by
      simp [bullish_stocks, List.filter_cons, hbe]
    have h2 : total_stocks (e :: l) = total_stocks l + 1 := rfl
    simp only [bearish_stocks, h1, h2]
    omega

/-- Witness for C4's amended claim: a zero-EMA symbol prepended to a
one-symbol bullish result set raises the bearish total by one. -/
theorem technical_health_summary_amended_witness :
    bearish_stocks [⟨0, 0⟩, ⟨2, 3⟩] = bearish_stocks [⟨2, 3⟩] + 1 :=
  (technical_health_summary_amended [⟨2, 3⟩] ⟨0, 0⟩ rfl).2.2.2

/-! ## Holdings (`get_holdings` lines 300-338, `process_holdings` in
kite_utils.py lines 15-44, `holdings_dict` in `get_risk_analytics`
lines 372-390) -/

/-- Python `round(x, ndigits)` rounds half to even. The integer round. -/
def roundHalfEven (q : ℚ) : ℤ :=
  if Int.fract q = 1 / 2 then 2 * round (q / 2) else round q

/-- `round(x, 2)`. -/
def pyRound2 (q : ℚ) : ℚ := (roundHalfEven (q * 100) : ℚ) / 100

/-- `round(x, 1)`. -/
def pyRound1 (q : ℚ) : ℚ := (roundHalfEven (q * 10) : ℚ) / 10

/-- `round(x, 0)`. -/
def pyRound0 (q : ℚ) : ℚ := (roundHalfEven q : ℚ)

/-- The optional `mtf` sub-dict of a raw holding; `quantity` and `value` are
read with `.get(key, 0)`, so absent keys default to 0 and the fields are
modelled as total. -/
structure Mtf where
  quantity : ℤ
  value : ℚ
deriving DecidableEq

/-- A raw holding as returned by `kite.holdings()` (the fields the code
reads). `mtf = none` models `h.get('mtf')` not being a dict. -/
structure RawHolding where
  tradingsymbol : String
  exchange : String
  quantity : ℤ
  t1_quantity : ℤ
  mtf : Option Mtf
  average_price : ℚ
  last_price : ℚ
  pnl : ℚ
  day_change : ℚ
  day_change_percentage : ℚ
deriving DecidableEq

/-- `regular_qty = h['quantity'] + h['t1_quantity']`. -/
def regularQty (h : RawHolding) : ℤ := h.quantity + h.t1_quantity

/-- `mtf_qty = h['mtf'].get('quantity', 0)` when `mtf` is a dict, else 0. -/
def mtfQty (h : RawHolding) : ℤ :=
  match h.mtf with
  | some m => m.quantity
  | none => 0

/-- `total_qty = regular_qty + mtf_qty`. -/
def totalQty (h : RawHolding) : ℤ := regularQty h + mtfQty h

/-- `mtf_investment = h['mtf'].get('value', 0)` when `mtf` is a dict, else 0. -/
def mtfValue (h : RawHolding) : ℚ :=
  match h.mtf with
  | some m => m.value
  | none => 0

/-- `total_investment = regular_qty * average_price + mtf_investment`. -/
def totalInvestment (h : RawHolding) : ℚ :=
  (regularQty h : ℚ) * h.average_price + mtfValue h

/-- A `formatted_holding` record of `/api/holdings`. -/
structure FormattedHolding where
  symbol : String
  exchange : String
  regular_qty : ℤ
  mtf_qty : ℤ
  total_qty : ℤ
  avg_price : ℚ
  last_price : ℚ
  investment : ℚ
  pnl : ℚ
  pnl_percent : ℚ
  day_change : ℚ
  day_change_percent : ℚ
deriving DecidableEq

/-- Building one `formatted_holding` (lines 324-337). -/
def formatHolding (h : RawHolding) : FormattedHolding where
  symbol := h.tradingsymbol
  exchange := h.exchange
  regular_qty := regularQty h
  mtf_qty := mtfQty h
  total_qty := totalQty h
  avg_price := pyRound2 h.average_price
  last_price := pyRound2 h.last_price
  investment := pyRound2 (totalInvestment h)
  pnl := pyRound2 h.pnl
  pnl_percent := pyRound2 (if 0 < totalInvestment h then h.pnl / totalInvestment h * 100 else 0)
  day_change := pyRound2 h.day_change
  day_change_percent := pyRound2 h.day_change_percentage

/-- The formatting loop of `/api/holdings`: a holding is appended iff
`total_qty != 0`. -/
def formatHoldings : List RawHolding → List FormattedHolding
  | [] => []
  | h :: hs =>
    if totalQty h ≠ 0 then formatHolding h :: formatHoldings hs
    else formatHoldings hs

/-- A row of `process_holdings` in kite_utils.py (its rounding differs from
the server's: prices to 1 decimal, investment and P&L to 0). -/
structure ProcessedHolding where
  symbol : String
  exchange : String
  regular_qty : ℤ
  mtf_qty : ℤ
  total_qty : ℤ
  avg_price : ℚ
  last_price : ℚ
  investment : ℚ
  pnl : ℚ
  pnl_pct : ℚ
  day_change : ℚ
  pct_change : ℚ
deriving DecidableEq

/-- Building one `process_holdings` row (kite_utils.py lines 30-43). -/
def processHolding (h : RawHolding) : ProcessedHolding where
  symbol := h.tradingsymbol
  exchange := h.exchange
  regular_qty := regularQty h
  mtf_qty := mtfQty h
  total_qty := totalQty h
  avg_price := pyRound1 h.average_price
  last_price := pyRound1 h.last_price
  investment := pyRound0 (totalInvestment h)
  pnl := pyRound0 h.pnl
  pnl_pct := pyRound2 (if 0 < totalInvestment h then h.pnl / totalInvestment h * 100 else 0)
  day_change := pyRound2 h.day_change
  pct_change := pyRound2 h.day_change_percentage

/-- The `process_holdings` loop (kite_utils.py lines 17-44): a holding is
appended iff `total_qty != 0`. -/
def processHoldings : List RawHolding → List ProcessedHolding
  | [] => []
  | h :: hs =>
    if totalQty h ≠ 0 then processHolding h :: processHoldings hs
    else processHoldings hs

/-- A `holdings_dict` entry of `get_risk_analytics` projected to the fields
the risk formulas read. -/
def holdingView (h : RawHolding) : HoldingView :=
  ⟨h.average_price, h.last_price, totalQty h, h.pnl⟩

/-- The `holdings_dict` loop (lines 372-390): keyed by trading symbol,
holdings with `total_qty != 0` only, later entries overwriting earlier. -/
def buildHoldingsDict (hs : List RawHolding) : String → Option HoldingView :=
  hs.foldl
    (fun d h =>
      if totalQty h ≠ 0 then
        fun s => if s = h.tradingsymbol then some (holdingView h) else d s
      else d)
    (fun _ => none)

theorem formatHoldings_eq_filter_map (hs : List RawHolding) :
    formatHoldings hs =
      (hs.filter fun x => decide (totalQty x ≠ 0)).map formatHolding := by
  induction hs with
  | nil => rfl
  | cons h hs ih =>
    by_cases hq : totalQty h = 0 <;>
      simp [formatHoldings, List.filter_cons, hq, ih]

theorem processHoldings_eq_filter_map (hs : List RawHolding) :
    processHoldings hs =
      (hs.filter fun x => decide (totalQty x ≠ 0)).map processHolding := by
  induction hs with
  | nil => rfl
  | cons h hs ih =>
    by_cases hq : totalQty h = 0 <;>
      simp [processHoldings, List.filter_cons, hq, ih]

theorem buildHoldingsDict_append_one (hs : List RawHolding) (h : RawHolding)
    (hq : totalQty h ≠ 0) :
    buildHoldingsDict (hs ++ [h]) h.tradingsymbol = some (holdingView h) := by
  simp [buildHoldingsDict, List.foldl_append, hq]

/-- C10: a holding with negative total quantity is not excluded: the
formatted holdings (server and kite_utils variants) keep exactly the
holdings with `total_qty != 0`, and a negative-quantity holding appears in
the formatted output and in the risk-join `holdings_dict`. -/
theorem negative_qty_holding_included (hs : List RawHolding) (h : RawHolding)
    (hneg : totalQty h < 0) :
    formatHoldings hs =
      ((hs.filter fun x => decide (totalQty x ≠ 0)).map formatHolding) ∧
    processHoldings hs =
      ((hs.filter fun x => decide (totalQty x ≠ 0)).map processHolding) ∧
    formatHolding h ∈ formatHoldings (h :: hs) ∧
    buildHoldingsDict (hs ++ [h]) h.tradingsymbol = some (holdingView h) := by
  have hq : totalQty h ≠ 0 := ne_of_lt hneg
  refine ⟨formatHoldings_eq_filter_map hs, processHoldings_eq_filter_map hs, ?_, ?_⟩
  · simp [formatHoldings, hq]
  · exact buildHoldingsDict_append_one hs h hq

/-- Witness for C10: a short position of -5 shares appears in the formatted
holdings output. -/
theorem negative_qty_holding_included_witness :
    formatHolding ⟨"SHORT", "NSE", -5, 0, none, 10, 12, 0, 0, 0⟩ ∈
      formatHoldings [⟨"SHORT", "NSE", -5, 0, none, 10, 12, 0, 0, 0⟩] :=
  (negative_qty_holding_included [] ⟨"SHORT", "NSE", -5, 0, none, 10, 12, 0, 0, 0⟩
    (by decide)).2.2.1

/-! ## GTT dictionary (`get_risk_analytics` lines 393-402) -/

/-- One leg of `order['orders']`. -/
structure OrderLeg where
  transaction_type : String
  quantity : ℤ
  price : ℚ
deriving DecidableEq

/-- A raw GTT order as returned by `kite.get_gtts()` (the fields the code
reads: `status`, `condition.exchange`, `condition.tradingsymbol`,
`condition.trigger_values`, `orders`). -/
structure RawGtt where
  id : ℕ
  status : String
  exchange : String
  tradingsymbol : String
  trigger_values : List ℚ
  orders : List OrderLeg
deriving DecidableEq

/-- A `gtt_dict` value (lines 397-402). -/
structure GttDictEntry where
  sl_trigger : ℚ
  tgt_trigger : ℚ
  type : String
  qty : ℤ
deriving DecidableEq

/-- Building one `gtt_dict` value: `trigger_values[0]` and `orders[0]` raise
on empty lists (modelled by `none`); `tgt_trigger` is `trigger_values[1]`
when present, else 0. -/
def gttDictEntryOf (o : RawGtt) : Option GttDictEntry :=
  match o.trigger_values, o.orders with
  | sl :: rest, leg :: _ => some ⟨sl, rest.headD 0, leg.transaction_type, leg.quantity⟩
  | _, _ => none

/-- The `gtt_dict` loop: active orders only; `gtt_dict[symbol] = ...`
overwrites any earlier entry for the same symbol.  `none` models an
IndexError aborting the handler. -/
def buildGttDict : List RawGtt → (String → Option GttDictEntry) →
    Option (String → Option GttDictEntry)
  | [], d => some d
  | o :: rest, d =>
    if o.status = "active" then
      match gttDictEntryOf o with
      | none => none
      | some e => buildGttDict rest (fun s => if s = o.tradingsymbol then some e else d s)
    else buildGttDict rest d

/-- First of two active GTT orders on symbol ABC. -/
def dupOrder1 : RawGtt := ⟨1, "active", "NSE", "ABC", [90, 150], [⟨"SELL", 5, 89⟩]⟩

/-- Second active GTT order on the same symbol ABC. -/
def dupOrder2 : RawGtt := ⟨2, "active", "NSE", "ABC", [80, 140], [⟨"SELL", 5, 79⟩]⟩

/-- C3 counterexample: with two active orders on the same symbol, the join
dictionary holds the second (last) order's triggers, not the first's. -/
theorem gtt_join_first_match_fails :
    (buildGttDict [dupOrder1, dupOrder2] (fun _ => none)).map (fun dict => dict "ABC") =
      some (some ⟨80, 140, "SELL", 5⟩) ∧
    gttDictEntryOf dupOrder1 = some ⟨90, 150, "SELL", 5⟩ ∧
    (GttDictEntry.mk 80 140 "SELL" 5 ≠ GttDictEntry.mk 90 150 "SELL" 5) := by
  refine ⟨rfl, rfl, by decide⟩

/-- C3 amended: when more than one active order shares a trading symbol, the
risk-analytics join uses the LAST active order encountered for that symbol;
for well-formed orders the dict lookup equals the last matching filtered
order's entry. -/
theorem getLast?_cons_isSome {α : Type} (b : α) (bs : List α) :
    ∃ a, (b :: bs).getLast? = some a := by
  induction bs generalizing b with
  | nil => exact ⟨b, rfl⟩
  | cons c cs ih =>
    obtain ⟨a, ha⟩ := ih c
    exact ⟨a, by rw [List.getLast?_cons_cons]; exact ha⟩

theorem gtt_join_last_match_wins (orders : List RawGtt)
    (d : String → Option GttDictEntry) (sym : String)
    (hwf : ∀ o ∈ orders, o.status = "active" → o.trigger_values ≠ [] ∧ o.orders ≠ []) :
    (buildGttDict orders d).map (fun dict => dict sym) =
      some (match (orders.filter fun o =>
          decide (o.status = "active" ∧ o.tradingsymbol = sym)).getLast? with
        | some o => gttDictEntryOf o
        | none => d sym) := by
  induction orders generalizing d with
  | nil => rfl
  | cons o rest ih =>
    have hwfo := hwf o (List.mem_cons_self o rest)
    have hwfr : ∀ x ∈ rest, x.status = "active" → x.trigger_values ≠ [] ∧ x.orders ≠ [] :=
      fun x hx => hwf x (List.mem_cons_of_mem o hx)
    by_cases hact : o.status = "active"
    · obtain ⟨htv, hor⟩ := hwfo hact
      obtain ⟨e, he⟩ : ∃ e, gttDictEntryOf o = some e := by
        unfold gttDictEntryOf
        match htv' : o.trigger_values, hor' : o.orders with
        | [], _ => exact absurd htv' htv
        | _ :: _, [] => exact absurd hor' hor
        | sl :: rest', leg :: _ => exact ⟨_, rfl⟩
      rw [show buildGttDict (o :: rest) d =
            buildGttDict rest (fun s => if s = o.tradingsymbol then some e else d s) by
          simp [buildGttDict, hact, he]]
      rw [ih _ hwfr]
      by_cases hsym : o.tradingsymbol = sym
      · subst hsym
        have hfcons : (o :: rest).filter
              (fun x => decide (x.status = "active" ∧ x.tradingsymbol = o.tradingsymbol)) =
            o :: rest.filter
              (fun x => decide (x.status = "active" ∧ x.tradingsymbol = o.tradingsymbol)) := by
          simp [List.filter_cons, hact]
        rw [hfcons]
        cases hfr : rest.filter
            (fun x => decide (x.status = "active" ∧ x.tradingsymbol = o.tradingsymbol)) with
        | nil => simp [he]
        | cons b bs =>
          obtain ⟨a, ha⟩ := getLast?_cons_isSome b bs
          simp [List.getLast?_cons_cons, ha]
      · have hfcons : (o :: rest).filter
              (fun x => decide (x.status = "active" ∧ x.tradingsymbol = sym)) =
            rest.filter (fun x => decide (x.status = "active" ∧ x.tradingsymbol = sym)) := by
          simp [List.filter_cons, hsym]
        rw [hfcons]
        cases rest.filter (fun x => decide (x.status = "active" ∧ x.tradingsymbol = sym)) |>.getLast? with
        | none =>
          simp only [Option.some.injEq]
          rw [if_neg (fun hh => hsym hh.symm)]
        | some a => rfl
    · have hfcons : (o :: rest).filter
            (fun x => decide (x.status = "active" ∧ x.tradingsymbol = sym)) =
          rest.filter (fun x => decide (x.status = "active" ∧ x.tradingsymbol = sym)) := by
        simp [List.filter_cons, hact]
      rw [show buildGttDict (o :: rest) d = buildGttDict rest d by simp [buildGttDict, hact]]
      rw [hfcons]
      exact ih d hwfr

/-- Witness for C3's amended claim at the two duplicate orders. -/
theorem gtt_join_last_match_wins_witness :
    (buildGttDict [dupOrder1, dupOrder2] (fun _ => none)).map (fun dict => dict "ABC") =
      some (match ([dupOrder1, dupOrder2].filter fun o =>
          decide (o.status = "active" ∧ o.tradingsymbol = "ABC")).getLast? with
        | some o => gttDictEntryOf o
        | none => none) :=
  gtt_join_last_match_wins [dupOrder1, dupOrder2] (fun _ => none) "ABC" (by decide)

/-! ## Session state and the GTT TTL cache (`_gtt_cache` line 32,
`get_cached_gtts` lines 83-90, `/api/holdings` lines 281-348,
`/api/refresh_session` lines 709-720) -/

/-- The process-wide mutable state the handlers read: the session handle
(`kite is not None and access_token is not None`, collapsed to one flag)
and `_gtt_cache = {'data': None, 'fetched_at': 0}`. -/
structure ServerState where
  sessionActive : Bool
  gttData : Option (List RawGtt)
  gttFetchedAt : ℚ
deriving DecidableEq

/-- `get_cached_gtts()` at wall-clock time `now`, with the brokerage
returning `fetched` if called through.  Result: the returned orders, the
new state, and the number of `kite.get_gtts()` calls made (0 or 1). -/
def get_cached_gtts (fetched : List RawGtt) (now : ℚ) (st : ServerState) :
    List RawGtt × ServerState × ℕ :=
  match st.gttData with
  | some d =>
    if now - st.gttFetchedAt < 60 then (d, st, 0)
    else (fetched, { st with gttData := some fetched, gttFetchedAt := now }, 1)
  | none => (fetched, { st with gttData := some fetched, gttFetchedAt := now }, 1)

/-- The `/api/holdings` handler at time `now`: after ensuring a session
(login outcome `loginOk` when none is active), it calls `kite.holdings()`
unconditionally — the handler has no holdings cache, so its behaviour does
not depend on `now`.  Result: the formatted holdings (`none` models the
500 error payload when login fails), the new state, and the number of
`kite.holdings()` calls made. -/
def holdingsEndpoint (loginOk : Bool) (brokerHoldings : List RawHolding)
    (now : ℚ) (st : ServerState) : Option (List FormattedHolding) × ServerState × ℕ :=
  if st.sessionActive then (some (formatHoldings brokerHoldings), st, 1)
  else if loginOk then
    (some (formatHoldings brokerHoldings), { st with sessionActive := true }, 1)
  else (none, st, 0)

/-- `/api/refresh_session`: sets `kite = None, access_token = None`, then
re-runs `initialize_kite_session()` with outcome `loginOk`.  `_gtt_cache`
is not touched; no `invalidate()` exists anywhere in the code. -/
def refresh_session (loginOk : Bool) (st : ServerState) : ServerState × Bool :=
  ({ st with sessionActive := loginOk }, loginOk)

/-- A concrete holding for the C1 scenario. -/
def sampleHolding1 : RawHolding := ⟨"RELIANCE", "NSE", 3, 0, none, 100, 120, 60, 1, 1⟩

/-- A second, different concrete holding for the C1 scenario. -/
def sampleHolding2 : RawHolding := ⟨"TCS", "NSE", 2, 0, none, 50, 55, 10, 1, 1⟩

/-- C1 counterexample: two `/api/holdings` requests 30 seconds apart each
invoke `kite.holdings()` (the second makes 1 brokerage call, not 0), and
the second returns the newly fetched holdings, not the first response. -/
theorem holdings_not_cached_counterexample :
    (holdingsEndpoint true [sampleHolding1] 0 ⟨true, none, 0⟩).2.2 = 1 ∧
    (holdingsEndpoint true [sampleHolding2] 30
        (holdingsEndpoint true [sampleHolding1] 0 ⟨true, none, 0⟩).2.1).2.2 = 1 ∧
    (holdingsEndpoint true [sampleHolding2] 30
        (holdingsEndpoint true [sampleHolding1] 0 ⟨true, none, 0⟩).2.1).1 =
      some (formatHoldings [sampleHolding2]) ∧
    formatHoldings [sampleHolding2] ≠ formatHoldings [sampleHolding1] := by
  refine ⟨rfl, rfl, rfl, by decide⟩

/-- C1 amended: the 60-second TTL cache governs `get_cached_gtts` (the GTT
orders), not holdings: with a populated cache, a call within 60 seconds of
the stored fetch returns the cached value with no brokerage call; once 60
seconds have elapsed it calls the brokerage again and re-stamps the cache;
`/api/holdings` makes exactly one `kite.holdings()` call on every request
under an active session, whatever the time. -/
theorem gtt_ttl_cache_amended (st : ServerState) (d fetched : List RawGtt)
    (now : ℚ) (hd : st.gttData = some d) :
    (now - st.gttFetchedAt < 60 → get_cached_gtts fetched now st = (d, st, 0)) ∧
    (¬ now - st.gttFetchedAt < 60 →
      get_cached_gtts fetched now st =
        (fetched, { st with gttData := some fetched, gttFetchedAt := now }, 1)) ∧
    (∀ (ok : Bool) (hs : List RawHolding) (t : ℚ), st.sessionActive = true →
      (holdingsEndpoint ok hs t st).2.2 = 1) := by
  refine ⟨?_, ?_, ?_⟩
  · intro hlt
    simp [get_cached_gtts, hd, hlt]
  · intro hge
    simp [get_cached_gtts, hd, hge]
  · intro ok hs t hact
    simp [holdingsEndpoint, hact]

/-- Witness for C1's amended claim: a populated cache stamped at t=100 is
returned as-is at t=130 with no brokerage call. -/
theorem gtt_ttl_cache_amended_witness :
    get_cached_gtts [dupOrder2] 130 ⟨true, some [dupOrder1], 100⟩ =
      ([dupOrder1], ⟨true, some [dupOrder1], 100⟩, 0) :=
  (gtt_ttl_cache_amended ⟨true, some [dupOrder1], 100⟩ [dupOrder1] [dupOrder2] 130 rfl).1
    (by norm_num)

/-- C2 counterexample: a manual session refresh leaves `_gtt_cache` intact,
so the first GTT request after the refresh, still inside the pre-refresh
TTL window, is served from the pre-refresh cache with 0 brokerage calls and
returns the stale value rather than calling through. -/
theorem refresh_keeps_gtt_cache_counterexample :
    (refresh_session true ⟨true, some [dupOrder1], 100⟩).1 =
      ⟨true, some [dupOrder1], 100⟩ ∧
    get_cached_gtts [dupOrder2] 130 (refresh_session true ⟨true, some [dupOrder1], 100⟩).1 =
      ([dupOrder1], ⟨true, some [dupOrder1], 100⟩, 0) ∧
    ([dupOrder1] : List RawGtt) ≠ [dupOrder2] := by
  refine ⟨rfl, ?_, by decide⟩
  norm_num [get_cached_gtts, refresh_session]

/-- C2 amended: `refresh_session` replaces the session handle (its flag
becomes the login outcome) but clears no cache entry: `_gtt_cache` keeps
its pre-refresh data and timestamp, so a GTT request within the
pre-refresh TTL window still returns the cached value with no brokerage
call; holdings are never cached, so a holdings request after refresh calls
through regardless. -/
theorem refresh_session_amended (ok : Bool) (st : ServerState) :
    ((refresh_session ok st).1.gttData = st.gttData) ∧
    ((refresh_session ok st).1.gttFetchedAt = st.gttFetchedAt) ∧
    ((refresh_session ok st).1.sessionActive = ok) ∧
    (∀ (d fetched : List RawGtt) (now : ℚ), st.gttData = some d →
      now - st.gttFetchedAt < 60 →
      get_cached_gtts fetched now (refresh_session ok st).1 =
        (d, (refresh_session ok st).1, 0)) := by
  refine ⟨rfl, rfl, rfl, ?_⟩
  intro d fetched now hd hlt
  simp [get_cached_gtts, refresh_session, hd, hlt]

/-- Witness for C2's amended claim at a concrete refreshed state. -/
theorem refresh_session_amended_witness :
    get_cached_gtts [] 130 (refresh_session true ⟨false, some [dupOrder1], 100⟩).1 =
      ([dupOrder1], (refresh_session true ⟨false, some [dupOrder1], 100⟩).1, 0) :=
  (refresh_session_amended true ⟨false, some [dupOrder1], 100⟩).2.2.2 [dupOrder1] [] 130 rfl
    (by norm_num)

/-! ## In-memory EMA cache (`_ema_cache` line 35, `get_ema_data`
lines 41-63) -/

/-- The dict stored per `(cache_key, date)` key in `_ema_cache`. -/
structure EmaResult where
  current_price : ℚ
  ema_10 : Option ℚ
  ema_20 : Option ℚ
  ema_50 : Option ℚ
  ema_200 : Option ℚ
deriving DecidableEq

/-- Lookup in `_ema_cache`, modelled as an association list. -/
def emaLookup (k : String × String) :
    List ((String × String) × EmaResult) → Option EmaResult
  | [] => none
  | (k', r) :: rest => if k = k' then some r else emaLookup k rest

/-- `get_ema_data(stock_data, cache_key)` at calendar date `today`: returns
the stored dict when `(cache_key, today)` is cached, else computes the EMAs
from the `Close` column and stores the result.  `stock_data` is modelled by
its `Close` column; `.iloc[-1]` on an empty frame raises (`none`). -/
def get_ema_data (close : List ℚ) (cache_key : String) (today : String)
    (cache : List ((String × String) × EmaResult)) :
    Option EmaResult × List ((String × String) × EmaResult) :=
  match emaLookup (cache_key, today) cache with
  | some r => (some r, cache)
  | none =>
    match close.getLast? with
    | none => (none, cache)
    | some last =>
      let n := close.length
      let e10 := if 10 ≤ n then calculate_ema close 10 else none
      let e20 := if 20 ≤ n then calculate_ema close 20 else none
      let e50 := if 50 ≤ n then calculate_ema close 50 else none
      let e200 := if 200 ≤ n then calculate_ema close 200 else none
      let r : EmaResult :=
        ⟨pyRound2 last, e10.map pyRound2, e20.map pyRound2, e50.map pyRound2,
          e200.map pyRound2⟩
      (some r, ((cache_key, today), r) :: cache)

/-- A sequence of `get_ema_data` calls threaded through the cache. -/
def runEmaCalls : List (List ℚ × String × String) →
    List ((String × String) × EmaResult) → List ((String × String) × EmaResult)
  | [], c => c
  | (close, ck, td) :: rest, c => runEmaCalls rest (get_ema_data close ck td c).2

theorem get_ema_data_stores (close : List ℚ) (ck td : String)
    (c c' : List ((String × String) × EmaResult)) (r : EmaResult)
    (h : get_ema_data close ck td c = (some r, c')) :
    emaLookup (ck, td) c' = some r := by
  unfold get_ema_data at h
  cases hl : emaLookup (ck, td) c with
  | some r0 =>
    rw [hl] at h
    obtain ⟨h1, h2⟩ := Prod.mk.injEq .. ▸ h
    subst h2
    rw [hl]
    exact h1
  | none =>
    rw [hl] at h
    cases hlast : close.getLast? with
    | none => rw [hlast] at h; exact absurd (congrArg Prod.fst h) (by simp)
    | some last =>
      rw [hlast] at h
      simp only [Prod.mk.injEq, Option.some.injEq] at h
      obtain ⟨h1, h2⟩ := h
      subst h2
      simp [emaLookup, h1]

theorem get_ema_data_preserves (k : String × String) (r : EmaResult)
    (close : List ℚ) (ck td : String)
    (c : List ((String × String) × EmaResult))
    (h : emaLookup k c = some r) :
    emaLookup k (get_ema_data close ck td c).2 = some r := by
  unfold get_ema_data
  cases hl : emaLookup (ck, td) c with
  | some r0 => exact h
  | none =>
    cases hlast : close.getLast? with
    | none => exact h
    | some last =>
      have hk : k ≠ (ck, td) := by
        intro hk
        rw [hk, hl] at h
        exact Option.noConfusion h
      simp only [emaLookup, if_neg hk]
      exact h

theorem runEmaCalls_preserves (k : String × String) (r : EmaResult)
    (calls : List (List ℚ × String × String))
    (c : List ((String × String) × EmaResult))
    (h : emaLookup k c = some r) :
    emaLookup k (runEmaCalls calls c) = some r := by
  induction calls generalizing c with
  | nil => exact h
  | cons call rest ih =>
    obtain ⟨close, ck, td⟩ := call
    exact ih _ (get_ema_data_preserves k r close ck td c h)

/-- C9: once a first `get_ema_data` call with key `(ck, td)` has stored a
result, every later call with the same key on the same date — after any
interleaved calls, and whatever `stock_data` series it is passed — returns
that stored result unchanged and leaves the cache unchanged. -/
theorem ema_cache_first_call_wins (close1 : List ℚ) (ck td : String)
    (c c' : List ((String × String) × EmaResult)) (r : EmaResult)
    (h1 : get_ema_data close1 ck td c = (some r, c'))
    (calls : List (List ℚ × String × String)) (close2 : List ℚ) :
    get_ema_data close2 ck td (runEmaCalls calls c') =
      (some r, runEmaCalls calls c') := by
  have hstored : emaLookup (ck, td) c' = some r := get_ema_data_stores close1 ck td c c' r h1
  have hlater : emaLookup (ck, td) (runEmaCalls calls c') = some r :=
    runEmaCalls_preserves (ck, td) r calls c' hstored
  unfold get_ema_data
  rw [hlater]

theorem pyRound2_intCast (n : ℤ) : pyRound2 (n : ℚ) = n := by
  have hmul : ((n : ℚ) * 100) = ((n * 100 : ℤ) : ℚ) := by push_cast; ring
  unfold pyRound2 roundHalfEven
  rw [hmul, Int.fract_intCast, round_intCast]
  rw [if_neg (by norm_num)]
  push_cast
  ring

/-- Witness for C9: a 2-bar series computed and cached under key A; a later
call with a different series, after an interleaved call under key B, still
returns the stored result. -/
theorem ema_cache_first_call_wins_witness :
    get_ema_data [99] "A" "2025-10-12"
        (runEmaCalls [([5], "B", "2025-10-12")]
          [(("A", "2025-10-12"), ⟨2, none, none, none, none⟩)]) =
      (some ⟨2, none, none, none, none⟩,
        runEmaCalls [([5], "B", "2025-10-12")]
          [(("A", "2025-10-12"), ⟨2, none, none, none, none⟩)]) :=
  ema_cache_first_call_wins [1, 2] "A" "2025-10-12" []
    [(("A", "2025-10-12"), ⟨2, none, none, none, none⟩)]
    ⟨2, none, none, none, none⟩
    (by
      have h2 : pyRound2 ((2 : ℚ)) = 2 := by exact_mod_cast pyRound2_intCast 2
      norm_num [get_ema_data, emaLookup, h2])
    [([5], "B", "2025-10-12")] [99]

/-! ## Daily file cache for historical data (`_fetch_with_cache`,
gtt_api_server.py lines 98-151) -/

/-- A DataFrame as far as `_fetch_with_cache` inspects it: column names and
row count.  `yf.download` returns the OHLCV columns with dates as the
index, so `Date` is not among `cols`; the multi-level column flattening of
line 136-137 is a no-op on this already-flat model. -/
structure Df where
  cols : List String
  nrows : ℕ
deriving DecidableEq

/-- The content of the day's cache file.  `corrupt` is text that
`json.load` rejects; `records cols n` is a JSON list of `n` records whose
keys are `cols` (the `.to_dict('records')` serialization; the empty list is
falsy). -/
inductive CacheFile
  | corrupt
  | records (cols : List String) (nrows : ℕ)
deriving DecidableEq

/-- One `yf.download(...)` outcome: the call raises or returns a frame. -/
inductive ProviderResp
  | raise
  | ok (df : Df)
deriving DecidableEq

/-- The fetch-and-cache tail of `_fetch_with_cache` (lines 130-151), entered
with cache-file state `s` (a bad file has already been deleted by then).
Returns the result, the new cache-file state and the number of provider
fetches (always 1 here). -/
def fetchTail (p : ProviderResp) (s : Option CacheFile) :
    Option Df × Option CacheFile × ℕ :=
  match p with
  | .raise => (none, s, 1)
  | .ok df =>
    if df.nrows = 0 then (none, s, 1)
    else if "Close" ∈ df.cols then
      if df.nrows < 50 then (none, s, 1)
      else (some df, some (.records ("Date" :: df.cols) df.nrows), 1)
    else (none, s, 1)

/-- `_fetch_with_cache` for one `(cache_key, date)` at a fixed date: read
and validate the day's cache file, serving from it when valid; otherwise
delete it and fall through to the fetch tail. -/
def fetchWithCache (p : ProviderResp) (s : Option CacheFile) :
    Option Df × Option CacheFile × ℕ :=
  match s with
  | none => fetchTail p none
  | some .corrupt => fetchTail p none
  | some (.records cols n) =>
    if n = 0 then fetchTail p none
    else
      let cols' := if "Date" ∈ cols then cols.erase "Date" else cols
      if "Close" ∈ cols' ∧ 50 ≤ n then (some ⟨cols', n⟩, some (.records cols n), 0)
      else fetchTail p none

/-- A sequence of `_fetch_with_cache` calls on the same key and date,
returning the final cache-file state and the total provider fetch count. -/
def runFetches : List ProviderResp → Option CacheFile → Option CacheFile × ℕ
  | [], s => (s, 0)
  | p :: ps, s =>
    let r := fetchWithCache p s
    let rest := runFetches ps r.2.1
    (rest.1, r.2.2 + rest.2)

/-- The read-side validation of the day's cache file (lines 113-124). -/
def validCacheFile : CacheFile → Prop
  | .corrupt => False
  | .records cols n =>
      n ≠ 0 ∧ "Close" ∈ (if "Date" ∈ cols then cols.erase "Date" else cols) ∧ 50 ≤ n

theorem fetchTail_count (p : ProviderResp) (s : Option CacheFile) :
    (fetchTail p s).2.2 = 1 := by
  cases p with
  | raise => rfl
  | ok df =>
    by_cases h0 : df.nrows = 0
    · simp [fetchTail, h0]
    · by_cases hc : "Close" ∈ df.cols
      · by_cases h50 : df.nrows < 50 <;> simp [fetchTail, h0, hc, h50]
      · simp [fetchTail, h0, hc]

theorem fetchTail_success (p : ProviderResp) (s s' : Option CacheFile) (df : Df)
    (h : fetchTail p s = (some df, s', 1)) :
    s' = some (.records ("Date" :: df.cols) df.nrows) ∧
      "Close" ∈ df.cols ∧ 50 ≤ df.nrows := by
  cases p with
  | raise => exact absurd (congrArg Prod.fst h) (by simp [fetchTail])
  | ok df0 =>
    by_cases h0 : df0.nrows = 0
    · rw [show fetchTail (.ok df0) s = (none, s, 1) by simp [fetchTail, h0]] at h
      exact absurd (congrArg Prod.fst h) (by simp)
    · by_cases hc : "Close" ∈ df0.cols
      · by_cases h50 : df0.nrows < 50
        · rw [show fetchTail (.ok df0) s = (none, s, 1) by simp [fetchTail, h0, hc, h50]] at h
          exact absurd (congrArg Prod.fst h) (by simp)
        · rw [show fetchTail (.ok df0) s =
              (some df0, some (.records ("Date" :: df0.cols) df0.nrows), 1) by
              simp [fetchTail, h0, hc, h50]] at h
          simp only [Prod.mk.injEq, Option.some.injEq] at h
          obtain ⟨rfl, hs', -⟩ := h
          exact ⟨hs'.symm, hc, not_lt.mp h50⟩
      · rw [show fetchTail (.ok df0) s = (none, s, 1) by simp [fetchTail, h0, hc]] at h
        exact absurd (congrArg Prod.fst h) (by simp)

theorem fetchWithCache_valid_written (df : Df) (hc : "Close" ∈ df.cols)
    (h50 : 50 ≤ df.nrows) (p : ProviderResp) :
    fetchWithCache p (some (.records ("Date" :: df.cols) df.nrows)) =
      (some df, some (.records ("Date" :: df.cols) df.nrows), 0) := by
  have h0 : df.nrows ≠ 0 := by omega
  have hdate : "Date" ∈ ("Date" :: df.cols) := List.mem_cons_self _ _
  simp only [fetchWithCache, if_neg h0, hdate, if_true, List.erase_cons_head]
  rw [if_pos ⟨hc, h50⟩]

/-- C7: once one `_fetch_with_cache` call has fetched from the provider and
written the day's cache file (result `some df` with one fetch), every later
call on the same key and date is served from that file: each returns the
same frame with 0 provider fetches, and any sequence of later calls leaves
the file unchanged with total fetch count 0 — so the count across repeated
calls stays at the first call's 1. -/
theorem fetch_cache_idempotent (p : ProviderResp) (s s' : Option CacheFile)
    (df : Df) (h : fetchWithCache p s = (some df, s', 1)) :
    (∀ p' : ProviderResp, fetchWithCache p' s' = (some df, s', 0)) ∧
    (∀ ps : List ProviderResp, runFetches ps s' = (s', 0)) := by
  have htail : ∀ s0 : Option CacheFile, fetchTail p s0 = (some df, s', 1) →
      s' = some (.records ("Date" :: df.cols) df.nrows) ∧
        "Close" ∈ df.cols ∧ 50 ≤ df.nrows :=
    fun s0 h0 => fetchTail_success p s0 s' df h0
  have hkey : s' = some (.records ("Date" :: df.cols) df.nrows) ∧
      "Close" ∈ df.cols ∧ 50 ≤ df.nrows := by
    match s, h with
    | none, h => exact htail none h
    | some .corrupt, h => exact htail none h
    | some (.records cols n), h =>
      by_cases h0 : n = 0
      · rw [show fetchWithCache p (some (.records cols n)) = fetchTail p none by
          simp [fetchWithCache, h0]] at h
        exact htail none h
      · by_cases hv : "Close" ∈ (if "Date" ∈ cols then cols.erase "Date" else cols) ∧ 50 ≤ n
        · rw [show fetchWithCache p (some (.records cols n)) =
              (some ⟨if "Date" ∈ cols then cols.erase "Date" else cols, n⟩,
                some (.records cols n), 0) by
            simp only [fetchWithCache, if_neg h0]; rw [if_pos hv]] at h
          exact absurd (congrArg (fun t => t.2.2) h) (by simp)
        · rw [show fetchWithCache p (some (.records cols n)) = fetchTail p none by
            simp only [fetchWithCache, if_neg h0]; rw [if_neg hv]] at h
          exact htail none h
  obtain ⟨hs', hc, h50⟩ := hkey
  have hone : ∀ p' : ProviderResp, fetchWithCache p' s' = (some df, s', 0) := by
    intro p'
    rw [hs']
    exact fetchWithCache_valid_written df hc h50 p'
  refine ⟨hone, ?_⟩
  intro ps
  induction ps with
  | nil => rfl
  | cons q qs ih =>
    simp [runFetches, hone q, ih]

/-- Witness for C7: a fresh 60-row frame with a Close column is fetched
once, and a later call (with the provider now raising) is served from the
written file with 0 fetches. -/
theorem fetch_cache_idempotent_witness :
    fetchWithCache .raise (some (.records ["Date", "Close"] 60)) =
      (some ⟨["Close"], 60⟩, some (.records ["Date", "Close"] 60), 0) :=
  (fetch_cache_idempotent (.ok ⟨["Close"], 60⟩) none
    (some (.records ["Date", "Close"] 60)) ⟨["Close"], 60⟩ (by decide)).1 .raise

/-- C8: when the day's cache file is corrupt — unreadable JSON, empty,
missing the Close column, or fewer than 50 rows — the next call behaves
exactly as a call with no cache file: it performs exactly one provider
fetch, returns that fetch's result (the corruption is never surfaced), and
the corrupt file is gone afterwards (deleted, and possibly replaced by a
freshly written valid one). -/
theorem fetch_cache_corruption_recovery (cf : CacheFile) (p : ProviderResp)
    (hbad : ¬ validCacheFile cf) :
    fetchWithCache p (some cf) = fetchWithCache p none ∧
    (fetchWithCache p (some cf)).2.2 = 1 ∧
    (fetchWithCache p (some cf)).2.1 ≠ some cf := by
  have heq : fetchWithCache p (some cf) = fetchTail p none := by
    match cf with
    | .corrupt => rfl
    | .records cols n =>
      by_cases h0 : n = 0
      · simp [fetchWithCache, h0]
      · have hv : ¬ ("Close" ∈ (if "Date" ∈ cols then cols.erase "Date" else cols) ∧ 50 ≤ n) :=
          fun hv => hbad ⟨h0, hv.1, hv.2⟩
        simp only [fetchWithCache, if_neg h0]
        rw [if_neg hv]
  have heqn : fetchWithCache p none = fetchTail p none := rfl
  refine ⟨heq.trans heqn.symm, ?_, ?_⟩
  · rw [heq]
    exact fetchTail_count p none
  · rw [heq]
    intro hfin
    cases p with
    | raise => exact Option.noConfusion hfin
    | ok df =>
      by_cases h0 : df.nrows = 0
      · rw [show fetchTail (.ok df) none = (none, none, 1) by simp [fetchTail, h0]] at hfin
        exact Option.noConfusion hfin
      · by_cases hc : "Close" ∈ df.cols
        · by_cases h50 : df.nrows < 50
          · rw [show fetchTail (.ok df) none = (none, none, 1) by
              simp [fetchTail, h0, hc, h50]] at hfin
            exact Option.noConfusion hfin
          · rw [show fetchTail (.ok df) none =
                (some df, some (.records ("Date" :: df.cols) df.nrows), 1) by
                simp [fetchTail, h0, hc, h50]] at hfin
            have hcf : CacheFile.records ("Date" :: df.cols) df.nrows = cf := by
              simpa using hfin
            apply hbad
            rw [← hcf]
            refine ⟨h0, ?_, not_lt.mp h50⟩
            rw [if_pos (List.mem_cons_self _ _), List.erase_cons_head]
            exact hc
        · rw [show fetchTail (.ok df) none = (none, none, 1) by simp [fetchTail, h0, hc]] at hfin
          exact Option.noConfusion hfin

/-- Witness for C8: an unreadable (invalid-JSON) cache file followed by a
successful 60-row fetch behaves exactly like a fresh fetch. -/
theorem fetch_cache_corruption_recovery_witness :
    fetchWithCache (.ok ⟨["Close"], 60⟩) (some .corrupt) =
      fetchWithCache (.ok ⟨["Close"], 60⟩) none :=
  (fetch_cache_corruption_recovery .corrupt (.ok ⟨["Close"], 60⟩)
    (by simp [validCacheFile])).1

end KiteSwing
